import Mathlib

/-!
Verification of the normalization + scoring engine of the e-commerce
data-cleaning / product-scoring repository (src/app.py, src/score_select.py).

The Python source is shallowly embedded: pandas Series become Lean lists,
float arithmetic becomes exact rational arithmetic over ℚ, the weight
dictionary becomes a 12-field structure, DataFrames become column-oriented
association lists from column names to cell lists, and a Python exception
(`raise ValueError`) becomes `Except.error`.
-/

namespace SJUPF

/- ## Weight allocator (src/score_select.py lines 19-214) -/

/-- The 12-dimension weight dictionary of `get_base_weights`, one field per
dictionary key, in source order. -/
structure Weights where
  sales_30d_score : ℚ
  gmv_30d_score : ℚ
  sales_7d_score : ℚ
  gmv_7d_score : ℚ
  commission_score : ℚ
  influencer_score : ℚ
  rank_score : ℚ
  growth_score : ℚ
  channel_score : ℚ
  conv_score : ℚ
  live_gmv_score : ℚ
  card_gmv_score : ℚ
deriving DecidableEq

/-- `get_base_weights` (score_select.py lines 19-34). -/
def get_base_weights : Weights where
  sales_30d_score := 12/100
  gmv_30d_score := 8/100
  sales_7d_score := 8/100
  gmv_7d_score := 7/100
  commission_score := 15/100
  influencer_score := 10/100
  rank_score := 12/100
  growth_score := 8/100
  channel_score := 5/100
  conv_score := 5/100
  live_gmv_score := 5/100
  card_gmv_score := 5/100

/-- `sum(weights.values())`, in dictionary order. -/
def sumWeights (w : Weights) : ℚ :=
  w.sales_30d_score + w.gmv_30d_score + w.sales_7d_score + w.gmv_7d_score +
  w.commission_score + w.influencer_score + w.rank_score + w.growth_score +
  w.channel_score + w.conv_score + w.live_gmv_score + w.card_gmv_score

/-- `all(col in df.columns for col in ['sales_7d', 'gmv_7d'])`
(score_select.py line 130). -/
def has_7d_fields (cols : List String) : Bool :=
  (["sales_7d", "gmv_7d"] : List String).all (fun c => cols.contains c)

/-- `all(col in df.columns for col in ['sales_30d', 'gmv_30d'])`
(score_select.py line 131). -/
def has_30d_fields (cols : List String) : Bool :=
  (["sales_30d", "gmv_30d"] : List String).all (fun c => cols.contains c)

/-- The `ValueError` message raised in scenario D (score_select.py line 178). -/
def missingFieldsError : String :=
  "数据文件缺少必要的销量和GMV字段（sales_7d/30d, gmv_7d/30d），无法进行评分"

/-- `adjust_weights_for_available_fields` (score_select.py lines 113-184).
The DataFrame argument is represented by its column-name list; the raised
`ValueError` becomes `Except.error`. -/
def adjust_weights_for_available_fields (cols : List String) (base_weights : Weights) :
    Except String Weights :=
  let weights := base_weights
  if has_7d_fields cols && has_30d_fields cols then
    -- scenario A: complete data, default weights
    .ok weights
  else if has_30d_fields cols && !(has_7d_fields cols) then
    -- scenario B: only 30-day data, move the 7-day mass to the 30-day fields
    let boost_total := weights.sales_7d_score + weights.gmv_7d_score
    let current_30d_total := weights.sales_30d_score + weights.gmv_30d_score
    let sales_boost := boost_total * (weights.sales_30d_score / current_30d_total)
    let gmv_boost := boost_total * (weights.gmv_30d_score / current_30d_total)
    .ok { weights with
          sales_30d_score := weights.sales_30d_score + sales_boost
          gmv_30d_score := weights.gmv_30d_score + gmv_boost
          sales_7d_score := 0
          gmv_7d_score := 0 }
  else if has_7d_fields cols && !(has_30d_fields cols) then
    -- scenario C: only 7-day data, move the 30-day mass to the 7-day fields
    let boost_total := weights.sales_30d_score + weights.gmv_30d_score
    let current_7d_total := weights.sales_7d_score + weights.gmv_7d_score
    let sales_boost := boost_total * (weights.sales_7d_score / current_7d_total)
    let gmv_boost := boost_total * (weights.gmv_7d_score / current_7d_total)
    .ok { weights with
          sales_7d_score := weights.sales_7d_score + sales_boost
          gmv_7d_score := weights.gmv_7d_score + gmv_boost
          sales_30d_score := 0
          gmv_30d_score := 0 }
  else
    -- scenario D: no sales/GMV fields at all
    .error missingFieldsError

/-- Rescale every weight except the boosted sales field, as in the final loop
of `adjust_holiday_weights` (score_select.py lines 204-210): the boosted field
keeps its value, all other fields are multiplied by
`(1 - boosted) / (sum of the others)`. `boost7` selects which sales field was
boosted. -/
def scaleOthers (w : Weights) (boost7 : Bool) : Weights :=
  let boosted := if boost7 then w.sales_7d_score else w.sales_30d_score
  let total_others := sumWeights w - boosted
  let scale_factor := (1 - boosted) / total_others
  if boost7 then
    { sales_7d_score := w.sales_7d_score
      sales_30d_score := w.sales_30d_score * scale_factor
      gmv_30d_score := w.gmv_30d_score * scale_factor
      gmv_7d_score := w.gmv_7d_score * scale_factor
      commission_score := w.commission_score * scale_factor
      influencer_score := w.influencer_score * scale_factor
      rank_score := w.rank_score * scale_factor
      growth_score := w.growth_score * scale_factor
      channel_score := w.channel_score * scale_factor
      conv_score := w.conv_score * scale_factor
      live_gmv_score := w.live_gmv_score * scale_factor
      card_gmv_score := w.card_gmv_score * scale_factor }
  else
    { sales_30d_score := w.sales_30d_score
      sales_7d_score := w.sales_7d_score * scale_factor
      gmv_30d_score := w.gmv_30d_score * scale_factor
      gmv_7d_score := w.gmv_7d_score * scale_factor
      commission_score := w.commission_score * scale_factor
      influencer_score := w.influencer_score * scale_factor
      rank_score := w.rank_score * scale_factor
      growth_score := w.growth_score * scale_factor
      channel_score := w.channel_score * scale_factor
      conv_score := w.conv_score * scale_factor
      live_gmv_score := w.live_gmv_score * scale_factor
      card_gmv_score := w.card_gmv_score * scale_factor }

/-- `adjust_holiday_weights` (score_select.py lines 186-214): add 0.02 to the
7-day sales weight if positive, else to the 30-day sales weight if positive,
else return unchanged; then rescale all other weights so the sum is 1. -/
def adjust_holiday_weights (base_weights : Weights) (is_holiday_mode : Bool) : Weights :=
  if !is_holiday_mode then base_weights
  else if base_weights.sales_7d_score > 0 then
    scaleOthers { base_weights with
                  sales_7d_score := base_weights.sales_7d_score + 2/100 } true
  else if base_weights.sales_30d_score > 0 then
    scaleOthers { base_weights with
                  sales_30d_score := base_weights.sales_30d_score + 2/100 } false
  else
    base_weights

/- ## Conversion scorer (src/score_select.py lines 334-346) -/

/-- `filter_and_score_conversion` (score_select.py lines 334-346) on a
conversion-rate column: returns the score series and the admission mask.
`Series.clip(0, 0.2)` is `min (max c 0) (2/10)` per cell. -/
def filter_and_score_conversion (conv_30d_series : List ℚ) : List ℚ × List Bool :=
  let valid_mask := conv_30d_series.map (fun c => decide (c ≥ 2/100))
  let clipped := conv_30d_series.map (fun c => min (max c 0) (2/10))
  let normalized := clipped.map (fun c => c / (2/10))
  let score := normalized.map (fun c => c * (8/100))
  (score, valid_mask)

/- ## Numeric normalizer (src/app.py lines 73-171) -/

/-- The unit characters of the character class `[wW万千]`. -/
def isUnitChar (c : Char) : Bool :=
  c == 'w' || c == 'W' || c == '万' || c == '千'

/-- Value of a digit string, most significant digit first. -/
def digitsToNat (ds : List Char) : ℕ :=
  ds.foldl (fun acc c => 10 * acc + (c.toNat - 48)) 0

/-- Greedy match of the regex piece `\d+\.?\d*` at the head of the character
list: one or more digits, an optional dot, zero or more digits. Returns the
matched value and the remaining characters, or `none` when the head is not a
digit. -/
def parseNumToken (cs : List Char) : Option (ℚ × List Char) :=
  let p := cs.span Char.isDigit
  if p.1.isEmpty then none
  else
    match p.2 with
    | '.' :: rest2 =>
      let q := rest2.span Char.isDigit
      some ((digitsToNat p.1 : ℚ) + (digitsToNat q.1 : ℚ) / (10 ^ q.1.length : ℚ), q.2)
    | _ => some ((digitsToNat p.1 : ℚ), p.2)

/-- Unit expansion used by both the range branch and the single-unit branch of
`numeric_normalizer` (app.py lines 132-138 and 148-155): `w`, `W` and `万`
multiply by 10,000 and `千` multiplies by 1,000. -/
def applyUnit (q : ℚ) (u : Char) : ℚ :=
  if u == 'w' || u == 'W' || u == '万' then q * 10000
  else if u == '千' then q * 1000
  else q

/-- Unit expansion for `re.findall` pairs whose unit group may be empty. -/
def applyUnitOpt (q : ℚ) : Option Char → ℚ
  | some u => applyUnit q u
  | none => q

/-- `re.findall(r'(\d+\.?\d*)([wW万千]?)', val)` (app.py line 129): scan the
string left to right collecting every number together with its optional unit
character. `fuel` bounds the recursion by the length of the string. -/
def findNumUnitAll (fuel : ℕ) (cs : List Char) : List (ℚ × Option Char) :=
  match fuel, cs with
  | 0, _ => []
  | _, [] => []
  | f + 1, c :: cs2 =>
    if c.isDigit then
      match parseNumToken (c :: cs2) with
      | some (q, u :: rest) =>
        if isUnitChar u then (q, some u) :: findNumUnitAll f rest
        else (q, none) :: findNumUnitAll f (u :: rest)
      | some (q, []) => [(q, none)]
      | none => findNumUnitAll f cs2
    else findNumUnitAll f cs2

/-- Match of `\d+\.?\d*[wW万千]?-\d+\.?\d*[wW万千]?` anchored at the head of
the character list. -/
def matchRangeAt (cs : List Char) : Bool :=
  match parseNumToken cs with
  | none => false
  | some (_, rest) =>
    let rest1 := match rest with
      | u :: r => if isUnitChar u then r else rest
      | [] => rest
    match rest1 with
    | '-' :: r2 =>
      match parseNumToken r2 with
      | none => false
      | some _ => true
    | _ => false

/-- `re.search(r'\d+\.?\d*[wW万千]?-\d+\.?\d*[wW万千]?', val)` (app.py
line 127): the pattern matches at some position of the string. -/
def searchRange : List Char → Bool
  | [] => false
  | c :: cs => matchRangeAt (c :: cs) || searchRange cs

/-- Match of `(\d+\.?\d*)([万千wW])` anchored at the head of the character
list: a number immediately followed by a mandatory unit character. -/
def matchNumUnitAt (cs : List Char) : Option (ℚ × Char) :=
  match parseNumToken cs with
  | none => none
  | some (q, u :: _) => if isUnitChar u then some (q, u) else none
  | some (_, []) => none

/-- `re.search(r'(\d+\.?\d*)([万千wW])', val)` (app.py lines 145-147): the
first match of number-followed-by-unit in the string. -/
def searchNumUnit : List Char → Option (ℚ × Char)
  | [] => none
  | c :: cs =>
    match matchNumUnitAt (c :: cs) with
    | some r => some r
    | none => searchNumUnit cs

/-- Python `float(...)` on an already comma-stripped string, modelled for
plain decimal forms: optional surrounding spaces, optional sign, digits with
an optional fractional part (scientific notation, underscores and the
inf/nan words are not modelled; no cell handled by the claims uses them).
This is the parser core for an unsigned decimal. -/
def pyFloatCore (cs : List Char) : Option ℚ :=
  match cs with
  | '.' :: rest =>
    let p := rest.span Char.isDigit
    if p.1.isEmpty || !p.2.isEmpty then none
    else some ((digitsToNat p.1 : ℚ) / (10 ^ p.1.length : ℚ))
  | _ =>
    let p := cs.span Char.isDigit
    if p.1.isEmpty then none
    else
      match p.2 with
      | [] => some (digitsToNat p.1 : ℚ)
      | '.' :: rest2 =>
        let q := rest2.span Char.isDigit
        if q.2.isEmpty then
          some ((digitsToNat p.1 : ℚ) + (digitsToNat q.1 : ℚ) / (10 ^ q.1.length : ℚ))
        else none
      | _ => none

/-- Python `float(...)` including sign and space stripping. -/
def pyFloat (cs : List Char) : Option ℚ :=
  let t := ((cs.dropWhile (fun c => c == ' ')).reverse.dropWhile
    (fun c => c == ' ')).reverse
  match t with
  | '-' :: rest => (pyFloatCore rest).map Neg.neg
  | '+' :: rest => pyFloatCore rest
  | _ => pyFloatCore t

/-- Result of normalizing one cell: a number, a null (`pd.NA`), or the cell
left unchanged because no rule applied (app.py lines 164-166). -/
inductive NormResult where
  | num (q : ℚ)
  | na
  | unchanged
deriving DecidableEq

/-- Step 5 of the per-cell normalization (app.py lines 160-166): strip commas
and parse as a plain float, leaving the cell unchanged on failure. -/
def normPlain (cs : List Char) : NormResult :=
  match pyFloat (cs.filter (fun c => !(c == ','))) with
  | some q => .num q
  | none => .unchanged

/-- Step 4 (app.py lines 144-158): a number with a Chinese/latin magnitude
unit; falls through to the plain-float step when the pattern is absent. -/
def normUnit (cs : List Char) : NormResult :=
  match searchNumUnit cs with
  | some (q, u) => .num (applyUnit q u)
  | none => normPlain cs

/-- Step 3 (app.py lines 126-142): a range value `number[unit]-number[unit]`
becomes the arithmetic mean of its two unit-expanded endpoints; falls through
when the pattern is absent (or fewer than two numbers are found). -/
def normRange (cs : List Char) : NormResult :=
  if cs.contains '-' && searchRange cs then
    match findNumUnitAll cs.length cs with
    | (q1, u1) :: (q2, u2) :: _ => .num ((applyUnitOpt q1 u1 + applyUnitOpt q2 u2) / 2)
    | _ => normUnit cs
  else normUnit cs

/-- Step 2 (app.py lines 117-124): a cell containing `%` is parsed with the
percent sign and commas removed and divided by 100; on a parse failure the
cell falls through to the later steps. -/
def normPercent (cs : List Char) : NormResult :=
  if cs.contains '%' then
    match pyFloat (cs.filter (fun c => !(c == '%' || c == ','))) with
    | some q => .num (q / 100)
    | none => normRange cs
  else normRange cs

/-- The per-cell body of `numeric_normalizer` (app.py lines 104-166), applied
to the string form of one cell: null markers first, then percentages, ranges,
magnitude units, plain numbers, and finally the unchanged fall-through. -/
def normalize_cell (val : String) : NormResult :=
  if val == "nan" || val == "None" || val == "" then .na
  else if val == "—" || val == "无数据" then .na
  else normPercent val.data

/-- The columns subjected to `numeric_normalizer` (app.py lines 92-93). -/
def numeric_fields : List String :=
  ["commission", "sales_7d", "gmv_7d", "sales_30d", "gmv_30d",
   "live_gmv_30d", "card_gmv_30d", "sales_1y", "conv_30d"]

/- ## Holiday detector (src/score_select.py lines 78-111, 383-385) -/

/-- A parsed calendar date. -/
structure PDate where
  year : ℤ
  month : ℤ
  day : ℤ
deriving DecidableEq

/-- Serial day number of a civil date (days since 1970-01-01), the standard
era-based algorithm; models the day arithmetic of pandas timestamps. -/
def daysFromCivil (y m d : ℤ) : ℤ :=
  let y2 := if m ≤ 2 then y - 1 else y
  let era := (if y2 ≥ 0 then y2 else y2 - 399) / 400
  let yoe := y2 - era * 400
  let mp := (m + 9) % 12
  let doy := (153 * mp + 2) / 5 + d - 1
  let doe := yoe * 365 + yoe / 4 - yoe / 100 + doy
  era * 146097 + doe - 719468

/-- The 7 fixed (month, day) holidays (score_select.py lines 80-88). -/
def holidays : List (ℤ × ℤ) :=
  [(1, 1), (2, 14), (3, 8), (6, 1), (9, 15), (10, 1), (12, 25)]

/-- `float('inf')`: larger than any day distance arising from a parseable
date. -/
def INF_DAYS : ℤ := 10 ^ 9

/-- The loop of `calculate_days_to_next_holiday` (score_select.py lines
94-108) on a successfully parsed date: minimum day distance to each holiday's
current-year occurrence (when not already past) and next-year occurrence. -/
def calculate_days_to_next_holiday (date : PDate) : ℤ :=
  let cur := daysFromCivil date.year date.month date.day
  holidays.foldl (fun min_days p =>
    let md1 :=
      if daysFromCivil date.year p.1 p.2 ≥ cur
      then min min_days (daysFromCivil date.year p.1 p.2 - cur)
      else min_days
    min md1 (daysFromCivil (date.year + 1) p.1 p.2 - cur)) INF_DAYS

/-- `True` for leap years (Gregorian rule). -/
def isLeapYear (y : ℤ) : Bool :=
  (y % 4 == 0 && y % 100 != 0) || y % 400 == 0

/-- Number of days of a month, used to reject invalid calendar dates. -/
def daysInMonth (y m : ℤ) : ℤ :=
  if m == 2 then (if isLeapYear y then 29 else 28)
  else if m == 4 || m == 6 || m == 9 || m == 11 then 30
  else 31

/-- Value of one ASCII digit character. -/
def digitVal (c : Char) : ℤ := (c.toNat : ℤ) - 48

/-- `pd.to_datetime` on the `YYYY-MM-DD` strings guaranteed by
`parse_file_date`, modelled as a strict ISO-date parser: exactly ten
characters, digits and dashes in place, month and day within calendar
range; anything else raises, i.e. returns `none`. -/
def parseDate (s : String) : Option PDate :=
  match s.data with
  | [y1, y2, y3, y4, '-', m1, m2, '-', d1, d2] =>
    if [y1, y2, y3, y4, m1, m2, d1, d2].all Char.isDigit then
      let y := 1000 * digitVal y1 + 100 * digitVal y2 + 10 * digitVal y3 + digitVal y4
      let m := 10 * digitVal m1 + digitVal m2
      let d := 10 * digitVal d1 + digitVal d2
      if 1 ≤ m && m ≤ 12 && 1 ≤ d && d ≤ daysInMonth y m then some ⟨y, m, d⟩
      else none
    else none
  | _ => none

/-- `calculate_days_to_next_holiday` (score_select.py lines 78-111) on the raw
string: the whole computation is wrapped in try/except and falls back to 999
when the date cannot be parsed. -/
def calculate_days_to_next_holiday_str (file_date : String) : ℤ :=
  match parseDate file_date with
  | some d => calculate_days_to_next_holiday d
  | none => 999

/-- `is_holiday_mode = days_to_holiday <= 45` (score_select.py line 385). -/
def is_holiday_mode_of (days_to_holiday : ℤ) : Bool :=
  days_to_holiday ≤ 45

/- ## DataFrames, numeric coercion (src/score_select.py lines 404-414) -/

/-- One DataFrame cell as the scoring engine sees it: a number, a missing
value (NaN), or a leftover unparsed string. -/
inductive Cell where
  | num (q : ℚ)
  | na
  | str (s : String)
deriving DecidableEq

/-- A DataFrame, column-oriented: association list from column name to that
column's cells (first binding wins, mirroring a duplicate-free pandas column
index). -/
def Table := List (String × List Cell)

/-- Look up the cells of column `c` (the pandas column access `df[col]`). -/
def getCol : Table → String → Option (List Cell)
  | [], _ => none
  | (c2, v) :: t, c => if c2 = c then some v else getCol t c

/-- Replace the cells of column `c`, appending the column when absent
(`df[col] = ...`). -/
def setCol : Table → String → List Cell → Table
  | [], c, cells => [(c, cells)]
  | (c2, v) :: t, c, cells =>
    if c2 = c then (c, cells) :: t else (c2, v) :: setCol t c cells

/-- `pd.to_numeric(x, errors='coerce').fillna(0)` on one cell: numbers stay,
numeric strings are parsed, everything else (NaN, unparsable strings)
becomes 0. -/
def toNumericFill0 : Cell → Cell
  | .num q => .num q
  | .na => .num 0
  | .str s =>
    match pyFloat s.data with
    | some q => .num q
    | none => .num 0

/-- The 12 designated numeric columns (score_select.py lines 405-407). -/
def numeric_cols : List String :=
  ["sales_7d", "sales_30d", "gmv_7d", "gmv_30d",
   "live_gmv_30d", "live_gmv_7d", "card_gmv_30d",
   "sales_1y", "conv_30d", "commission", "influencer_7d", "rank_no"]

/-- One iteration of the column-completion loop (score_select.py lines
410-414): a missing column is created filled with 0 (`n` is the row count the
scalar 0 broadcasts over); a present column is numerically coerced with NaN
replaced by 0. -/
def coerceStep (n : ℕ) (t : Table) (c : String) : Table :=
  match getCol t c with
  | none => setCol t c (List.replicate n (Cell.num 0))
  | some cells => setCol t c (cells.map toNumericFill0)

/-- The full column-completion loop over the 12 numeric columns. -/
def ensure_numeric_columns (t : Table) (n : ℕ) : Table :=
  numeric_cols.foldl (coerceStep n) t

/-- `col in df.columns`. -/
def hasCol (t : Table) (c : String) : Bool :=
  (getCol t c).isSome

/-- Read a column as rationals; a non-numeric cell reads as 0 (only applied
after coercion, where every cell is numeric). -/
def getColQ (t : Table) (c : String) : List ℚ :=
  match getCol t c with
  | some cells =>
    cells.map (fun x => match x with | Cell.num q => q | _ => 0)
  | none => []

/- ## Growth-potential score (src/score_select.py lines 286-299, 473-481) -/

/-- `growth_potential_score` (score_select.py lines 286-299):
`clip(sales_30d/(sales_1y/12 + 1) - penalty, 0, 1)` with a 0.2 penalty for
`sales_1y > 50000`. -/
def growth_potential_score (sales_30d sales_1y : ℚ) : ℚ :=
  let monthly_avg := sales_1y / 12
  let growth_rate := sales_30d / (monthly_avg + 1)
  let penalty : ℚ := if sales_1y > 50000 then 2/10 else 0
  min (max (growth_rate - penalty) 0) 1

/-- The growth-score branch of `process_single_file` (score_select.py lines
473-481) including the preceding column completion (lines 404-414): use
30-day sales when the column exists, else estimate them as `sales_7d * 4.3`,
else a fixed neutral 0.5. -/
def growthColumn (t : Table) (n : ℕ) : List ℚ :=
  let t2 := ensure_numeric_columns t n
  if hasCol t2 "sales_30d" && hasCol t2 "sales_1y" then
    List.zipWith growth_potential_score (getColQ t2 "sales_30d") (getColQ t2 "sales_1y")
  else if hasCol t2 "sales_7d" && hasCol t2 "sales_1y" then
    List.zipWith growth_potential_score
      ((getColQ t2 "sales_7d").map (fun x => x * (43/10))) (getColQ t2 "sales_1y")
  else
    List.replicate n (1/2)

/- ## Conversion filter cascade (src/score_select.py lines 416-442) -/

/-- The conversion sub-score expression recomputed after each filter tier
(score_select.py lines 429, 434, 438): `clip(0,0.2)/0.2*0.08`. -/
def convScoreExpr (c : ℚ) : ℚ :=
  min (max c 0) (2/10) / (2/10) * (8/100)

/-- The conversion filter of `process_single_file` (score_select.py lines
416-442), applied to the coerced `conv_30d` column (which, after lines
404-414, always exists and holds no NaN, so `df['conv_30d'].notna().any()`
reduces to the batch being non-empty). Returns the kept conversion values
and their conversion sub-scores; an empty batch receives the neutral 0.04
series (over the empty index). -/
def conv_filter_cascade (convs : List ℚ) : List ℚ × List ℚ :=
  if !convs.isEmpty then
    let fs := filter_and_score_conversion convs
    if fs.2.count true = 0 then
      let relaxed := convs.filter (fun c => decide (c ≥ 1/100))
      if relaxed.length > 0 then
        (relaxed, relaxed.map convScoreExpr)
      else
        (convs, convs.map convScoreExpr)
    else
      let kept := convs.filter (fun c => decide (c ≥ 2/100))
      (kept, kept.map convScoreExpr)
  else
    (convs, List.replicate convs.length (4/100))

/- ## Lemmas about column coercion -/

/-- Column `c` exists in `t` and all its cells are numbers. -/
def AllNum (t : Table) (c : String) : Prop :=
  ∃ cells, getCol t c = some cells ∧ ∀ x ∈ cells, ∃ q, x = Cell.num q

theorem getCol_setCol_self (t : Table) (c : String) (v : List Cell) :
    getCol (setCol t c v) c = some v := by
  induction t with
  | nil => simp [setCol, getCol]
  | cons p t ih =>
    obtain ⟨c2, w⟩ := p
    by_cases h : c2 = c
    · subst h; simp [setCol, getCol]
    · simp [setCol, getCol, h, ih]

theorem getCol_setCol_ne (t : Table) (c c2 : String) (v : List Cell)
    (h : c2 ≠ c) : getCol (setCol t c v) c2 = getCol t c2 := by
  induction t with
  | nil => simp [setCol, getCol, Ne.symm h]
  | cons p t ih =>
    obtain ⟨c3, w⟩ := p
    by_cases h3 : c3 = c
    · subst h3; simp [setCol, getCol, Ne.symm h]
    · by_cases h32 : c3 = c2 <;> simp [setCol, getCol, h3, h32, ih, h]

theorem toNumericFill0_isNum (x : Cell) : ∃ q, toNumericFill0 x = Cell.num q := by
  cases x with
  | num q => exact ⟨q, rfl⟩
  | na => exact ⟨0, rfl⟩
  | str s =>
    cases h : pyFloat s.data with
    | none => exact ⟨0, by simp [toNumericFill0, h]⟩
    | some q => exact ⟨q, by simp [toNumericFill0, h]⟩

theorem allNum_coerceStep_self (n : ℕ) (t : Table) (c : String) :
    AllNum (coerceStep n t c) c := by
  unfold coerceStep
  cases h : getCol t c with
  | none =>
    exact ⟨_, getCol_setCol_self t c _, fun x hx =>
      ⟨0, List.eq_of_mem_replicate hx⟩⟩
  | some cells =>
    exact ⟨_, getCol_setCol_self t c _, fun x hx => by
      obtain ⟨y, _, hy⟩ := List.mem_map.mp hx
      exact hy ▸ toNumericFill0_isNum y⟩

theorem allNum_coerceStep_preserve (n : ℕ) (t : Table) (c c2 : String)
    (h : AllNum t c2) : AllNum (coerceStep n t c) c2 := by
  by_cases hc : c2 = c
  · exact hc ▸ allNum_coerceStep_self n t c
  · obtain ⟨cells, hl, hn⟩ := h
    refine ⟨cells, ?_, hn⟩
    unfold coerceStep
    cases getCol t c <;> simp [getCol_setCol_ne t c c2 _ hc, hl]

theorem getCol_coerceStep_ne (n : ℕ) (t : Table) (c c2 : String) (h : c2 ≠ c) :
    getCol (coerceStep n t c) c2 = getCol t c2 := by
  unfold coerceStep
  cases getCol t c <;> simp [getCol_setCol_ne t c c2 _ h]

theorem coerceStep_absent (n : ℕ) (t : Table) (c : String)
    (h : getCol t c = none) :
    coerceStep n t c = setCol t c (List.replicate n (Cell.num 0)) := by
  unfold coerceStep
  rw [h]

theorem allNum_foldl_preserve (n : ℕ) (cols : List String) (c : String) :
    ∀ t : Table, AllNum t c → AllNum (cols.foldl (coerceStep n) t) c := by
  induction cols with
  | nil => exact fun t h => h
  | cons a cols ih => exact fun t h => ih _ (allNum_coerceStep_preserve n t a c h)

theorem allNum_foldl_mem (n : ℕ) (cols : List String) (c : String) :
    ∀ t : Table, c ∈ cols → AllNum (cols.foldl (coerceStep n) t) c := by
  induction cols with
  | nil => exact fun t hc => absurd hc (List.not_mem_nil c)
  | cons a cols ih =>
    intro t hc
    rcases List.mem_cons.mp hc with h | h
    · subst h
      exact allNum_foldl_preserve n cols c _ (allNum_coerceStep_self n t c)
    · exact ih _ h

theorem getCol_foldl_not_mem (n : ℕ) (cols : List String) (c : String) :
    ∀ t : Table, c ∉ cols →
      getCol (cols.foldl (coerceStep n) t) c = getCol t c := by
  induction cols with
  | nil => exact fun t _ => rfl
  | cons a cols ih =>
    intro t hc
    have hne : c ≠ a := fun h => hc (h ▸ List.mem_cons_self a cols)
    have hrest : c ∉ cols := fun h => hc (List.mem_cons_of_mem a h)
    rw [List.foldl_cons, ih _ hrest, getCol_coerceStep_ne n t a c hne]

/-- A missing `conv_30d` column comes out of the column-completion loop as an
all-zeros column. -/
theorem getCol_ensure_conv_absent (t : Table) (n : ℕ)
    (h : getCol t "conv_30d" = none) :
    getCol (ensure_numeric_columns t n) "conv_30d" =
      some (List.replicate n (Cell.num 0)) := by
  have hsplit : numeric_cols =
      (["sales_7d", "sales_30d", "gmv_7d", "gmv_30d",
        "live_gmv_30d", "live_gmv_7d", "card_gmv_30d", "sales_1y"] : List String) ++
      "conv_30d" :: ["commission", "influencer_7d", "rank_no"] := rfl
  unfold ensure_numeric_columns
  rw [hsplit, List.foldl_append, List.foldl_cons]
  rw [getCol_foldl_not_mem n _ _ _ (by decide)]
  have hpre : getCol (List.foldl (coerceStep n)
      t ["sales_7d", "sales_30d", "gmv_7d", "gmv_30d",
         "live_gmv_30d", "live_gmv_7d", "card_gmv_30d", "sales_1y"]) "conv_30d" =
      none := by
    rw [getCol_foldl_not_mem n _ _ _ (by decide)]
    exact h
  rw [coerceStep_absent n _ _ hpre]
  exact getCol_setCol_self _ _ _

/- ## Final selection (src/score_select.py lines 563-584) -/

/-- A scored row as the final selection step sees it: its dedup key
`product_url` and its `total_score`. -/
structure SRow where
  product_url : String
  total_score : ℚ
deriving DecidableEq

/-- `drop_duplicates(subset=['product_url'], keep='first')` (score_select.py
line 568): keep each row whose url was not seen in an earlier row. -/
def dedupByUrl (seen : List String) : List SRow → List SRow
  | [] => []
  | r :: rs =>
    if r.product_url ∈ seen then dedupByUrl seen rs
    else r :: dedupByUrl (r.product_url :: seen) rs

/-- Descending insertion by `total_score`. -/
def insertDesc (r : SRow) : List SRow → List SRow
  | [] => [r]
  | x :: xs =>
    if x.total_score < r.total_score then r :: x :: xs else x :: insertDesc r xs

/-- Descending sort by `total_score`: `nlargest(50, 'total_score')`
(score_select.py line 574) is this sort followed by `take 50` (the order
among tied scores is not load-bearing for any claim). -/
def sortDescByScore (rows : List SRow) : List SRow := rows.foldr insertDesc []

/-- The final selection of `process_data_files` (score_select.py lines
563-574): concatenate the per-file results in processing order, de-duplicate
on `product_url` keeping the first occurrence, and keep the 50 largest rows
by `total_score` in descending order. -/
def select_top50 (results : List (List SRow)) : List SRow :=
  (sortDescByScore (dedupByUrl [] results.flatten)).take 50

/-- Number of distinct product urls of a row list. -/
def distinctUrlCount (rows : List SRow) : ℕ :=
  (rows.map (fun r => r.product_url)).toFinset.card

/- ## Lemmas about the final selection -/

theorem sortDesc_cons (x : SRow) (xs : List SRow) :
    sortDescByScore (x :: xs) = insertDesc x (sortDescByScore xs) := rfl

theorem length_insertDesc (r : SRow) (l : List SRow) :
    (insertDesc r l).length = l.length + 1 := by
  induction l with
  | nil => rfl
  | cons x xs ih =>
    by_cases h : x.total_score < r.total_score <;> simp [insertDesc, h, ih]

theorem length_sortDesc (l : List SRow) :
    (sortDescByScore l).length = l.length := by
  induction l with
  | nil => rfl
  | cons x xs ih =>
    rw [sortDesc_cons, length_insertDesc, ih]
    rfl

theorem mem_insertDesc (y r : SRow) (l : List SRow) :
    y ∈ insertDesc r l ↔ y = r ∨ y ∈ l := by
  induction l with
  | nil => simp [insertDesc]
  | cons x xs ih =>
    by_cases h : x.total_score < r.total_score
    · simp [insertDesc, h]
    · simp [insertDesc, h, ih]
      tauto

theorem mem_sortDesc (y : SRow) (l : List SRow) :
    y ∈ sortDescByScore l ↔ y ∈ l := by
  induction l with
  | nil => simp [sortDescByScore]
  | cons x xs ih =>
    rw [sortDesc_cons, mem_insertDesc]
    simp [ih]

theorem sorted_insertDesc (r : SRow) (l : List SRow)
    (hp : l.Pairwise (fun a b => b.total_score ≤ a.total_score)) :
    (insertDesc r l).Pairwise (fun a b => b.total_score ≤ a.total_score) := by
  induction l with
  | nil => simp [insertDesc]
  | cons x xs ih =>
    obtain ⟨hx, hxs⟩ := List.pairwise_cons.mp hp
    by_cases h : x.total_score < r.total_score
    · simp only [insertDesc, if_pos h]
      refine List.Pairwise.cons ?_ hp
      intro y hy
      rcases List.mem_cons.mp hy with rfl | hy2
      · exact le_of_lt h
      · exact le_trans (hx y hy2) (le_of_lt h)
    · simp only [insertDesc, if_neg h]
      refine List.Pairwise.cons ?_ (ih hxs)
      intro y hy
      rcases (mem_insertDesc y r xs).mp hy with rfl | hy2
      · exact not_lt.mp h
      · exact hx y hy2

theorem sorted_sortDesc (l : List SRow) :
    (sortDescByScore l).Pairwise (fun a b => b.total_score ≤ a.total_score) := by
  induction l with
  | nil => simp [sortDescByScore]
  | cons x xs ih =>
    rw [sortDesc_cons]
    exact sorted_insertDesc x _ ih

theorem length_dedupByUrl (rs : List SRow) : ∀ seen : List String,
    (dedupByUrl seen rs).length =
      ((rs.map (fun r => r.product_url)).toFinset \ seen.toFinset).card := by
  induction rs with
  | nil => intro seen; simp [dedupByUrl]
  | cons r rs ih =>
    intro seen
    by_cases h : r.product_url ∈ seen
    · rw [dedupByUrl, if_pos h, ih seen, List.map_cons, List.toFinset_cons,
        Finset.insert_sdiff_of_mem _ (List.mem_toFinset.mpr h)]
    · rw [dedupByUrl, if_neg h, List.length_cons, ih (r.product_url :: seen)]
      rw [List.map_cons, List.toFinset_cons, List.toFinset_cons]
      rw [Finset.insert_sdiff_of_not_mem _ (fun hc => h (List.mem_toFinset.mp hc))]
      rw [Finset.sdiff_insert]
      by_cases hu : r.product_url ∈
          (rs.map (fun x => x.product_url)).toFinset \ seen.toFinset
      · rw [Finset.card_erase_of_mem hu, Finset.card_insert_of_mem hu]
        have hpos := Finset.card_pos.mpr ⟨_, hu⟩
        omega
      · rw [Finset.erase_eq_of_not_mem hu, Finset.card_insert_of_not_mem hu]

theorem dedup_first_occurrence (rs : List SRow) : ∀ seen : List String,
    ∀ r ∈ dedupByUrl seen rs, r.product_url ∉ seen ∧
      rs.find? (fun x => x.product_url == r.product_url) = some r := by
  induction rs with
  | nil => intro seen r hr; cases hr
  | cons x xs ih =>
    intro seen r hr
    by_cases h : x.product_url ∈ seen
    · rw [dedupByUrl, if_pos h] at hr
      obtain ⟨hns, hfind⟩ := ih seen r hr
      have hbeq : (x.product_url == r.product_url) = false := by
        rw [beq_eq_false_iff_ne]
        intro he
        exact hns (he ▸ h)
      exact ⟨hns, by simp [List.find?, hbeq, hfind]⟩
    · rw [dedupByUrl, if_neg h] at hr
      rcases List.mem_cons.mp hr with rfl | hr2
      · exact ⟨h, by simp [List.find?]⟩
      · obtain ⟨hns, hfind⟩ := ih _ r hr2
        have hne : r.product_url ≠ x.product_url := fun he =>
          hns (by rw [he]; exact List.mem_cons_self _ _)
        have hns2 : r.product_url ∉ seen := fun hx =>
          hns (List.mem_cons_of_mem _ hx)
        have hbeq : (x.product_url == r.product_url) = false := by
          rw [beq_eq_false_iff_ne]
          exact fun he => hne he.symm
        exact ⟨hns2, by simp [List.find?, hbeq, hfind]⟩

/- ## Field resolver (src/app.py lines 54-70, 290-333) -/

/-- Python substring containment `a in b` on character lists. -/
def substrList (a : List Char) : List Char → Bool
  | [] => a.isEmpty
  | c :: bs => List.isPrefixOf a (c :: bs) || substrList a bs

/-- Python substring containment `a in b` on strings. -/
def strIn (a b : String) : Bool := substrList a.data b.data

/-- `FIELD_ALIASES` (app.py lines 55-70), in definition order. -/
def FIELD_ALIASES : List (String × List String) :=
  [("product_name", ["商品", "商品名称", "产品名", "商品标题", "名称"]),
   ("product_url", ["商品链接", "抖音商品链接", "链接", "URL"]),
   ("category_l1", ["商品分类", "分类", "一级分类", "类目"]),
   ("commission", ["佣金比例", "佣金", "提成比例", "分成"]),
   ("sales_7d", ["周销量", "近7天销量", "7天销量", "7日销量"]),
   ("gmv_7d", ["周销售额", "近7天销售额", "7天GMV", "7日GMV"]),
   ("sales_30d", ["近30天销量", "30天销量", "月销量"]),
   ("gmv_30d", ["近30天销售额", "30天销售额", "月销售额"]),
   ("live_gmv_30d", ["30天直播GMV", "直播GMV", "直播销售额", "近30天直播销售额"]),
   ("card_gmv_30d", ["30天商品卡GMV", "商品卡GMV", "商品卡销售额", "近30天商品卡销售额"]),
   ("sales_1y", ["1年销量", "近1年销量", "年销量", "1年销售量"]),
   ("conv_30d", ["30天转化率", "转化率", "转换率"]),
   ("rank_no", ["排名", "排行", "名次"]),
   ("influencer_7d", ["周带货达人", "关联达人", "带货达人", "达人"])]

/-- `mapping[col] = std_field` on a Python dict kept as an association list:
overwrite in place when the key exists, append otherwise. -/
def dictInsert (m : List (String × String)) (k v : String) :
    List (String × String) :=
  match m with
  | [] => [(k, v)]
  | (k2, v2) :: rest =>
    if k2 = k then (k, v) :: rest else (k2, v2) :: dictInsert rest k v

/-- Pass 1 of `smart_field_mapping` (app.py lines 303-311): exact alias
match; for each unclaimed canonical field, the first raw column equal to one
of its aliases claims it. -/
def pass1 (columns : List String) :
    List (String × List String) → List (String × String) → List String →
      List (String × String) × List String
  | [], mapping, used => (mapping, used)
  | (std, aliases) :: fields, mapping, used =>
    if std ∈ used then pass1 columns fields mapping used
    else
      match columns.find? (fun col => decide (col ∈ aliases)) with
      | some col => pass1 columns fields (dictInsert mapping col std) (std :: used)
      | none => pass1 columns fields mapping used

/-- Fuzzy alias match of pass 2 (app.py lines 323-326): some alias is a
substring of the column name or vice versa. -/
def fuzzyMatch (aliases : List String) (col : String) : Bool :=
  aliases.any (fun a => strIn a col || strIn col a)

/-- Pass 2 of `smart_field_mapping` (app.py lines 314-331): fuzzy match; for
each still-unclaimed canonical field, the first not-yet-mapped raw column
that fuzzily matches one of its aliases claims it. -/
def pass2 (columns : List String) :
    List (String × List String) → List (String × String) → List String →
      List (String × String) × List String
  | [], mapping, used => (mapping, used)
  | (std, aliases) :: fields, mapping, used =>
    if std ∈ used then pass2 columns fields mapping used
    else
      match columns.find?
          (fun col => !(mapping.lookup col).isSome && fuzzyMatch aliases col) with
      | some col => pass2 columns fields (dictInsert mapping col std) (std :: used)
      | none => pass2 columns fields mapping used

/-- `smart_field_mapping` (app.py lines 290-333): exact pass then fuzzy pass
over the alias table, threading the mapping and the used-field set. -/
def smart_field_mapping (columns : List String) : List (String × String) :=
  let r1 := pass1 columns FIELD_ALIASES [] []
  (pass2 columns FIELD_ALIASES r1.1 r1.2).1

/- ## Lemmas about the field resolver -/

/-- Invariant threaded through both passes: the mapped canonical fields are
pairwise distinct and all recorded in the used set. -/
def MappingInv (mapping : List (String × String)) (used : List String) : Prop :=
  (mapping.map Prod.snd).Nodup ∧ ∀ v ∈ mapping.map Prod.snd, v ∈ used

theorem mem_values_dictInsert (k v : String) :
    ∀ (m : List (String × String)) (x : String),
      x ∈ (dictInsert m k v).map Prod.snd → x = v ∨ x ∈ m.map Prod.snd := by
  intro m
  induction m with
  | nil => intro x hx; simpa [dictInsert] using hx
  | cons p rest ih =>
    intro x hx
    obtain ⟨k2, v2⟩ := p
    by_cases h : k2 = k
    · simp only [dictInsert, if_pos h, List.map_cons, List.mem_cons] at hx
      rcases hx with rfl | hx
      · exact Or.inl rfl
      · exact Or.inr (by simp [hx])
    · simp only [dictInsert, if_neg h, List.map_cons, List.mem_cons] at hx
      rcases hx with rfl | hx
      · exact Or.inr (by simp)
      · rcases ih x hx with h2 | h2
        · exact Or.inl h2
        · exact Or.inr (by simp [h2])

theorem mappingInv_dictInsert (k v : String) :
    ∀ (m : List (String × String)) (used : List String),
      MappingInv m used → v ∉ used → MappingInv (dictInsert m k v) (v :: used) := by
  intro m
  induction m with
  | nil =>
    intro used _ _
    refine ⟨by simp [dictInsert], ?_⟩
    intro x hx
    simp [dictInsert] at hx
    simp [hx]
  | cons p rest ih =>
    intro used hinv hv
    obtain ⟨k2, v2⟩ := p
    obtain ⟨hnd, hsub⟩ := hinv
    rw [List.map_cons, List.nodup_cons] at hnd
    have hsub2 : ∀ x ∈ rest.map Prod.snd, x ∈ used := fun x hx =>
      hsub x (by simp [hx])
    have hv2used : v2 ∈ used := hsub v2 (by simp)
    by_cases h : k2 = k
    · constructor
      · simp only [dictInsert, if_pos h, List.map_cons, List.nodup_cons]
        exact ⟨fun hc => hv (hsub2 v hc), hnd.2⟩
      · intro x hx
        simp only [dictInsert, if_pos h, List.map_cons, List.mem_cons] at hx
        rcases hx with rfl | hx
        · exact List.mem_cons_self _ _
        · exact List.mem_cons_of_mem _ (hsub2 x hx)
    · have ihr := ih used ⟨hnd.2, hsub2⟩ hv
      constructor
      · simp only [dictInsert, if_neg h, List.map_cons, List.nodup_cons]
        refine ⟨fun hc => ?_, ihr.1⟩
        rcases mem_values_dictInsert k v rest v2 hc with rfl | h2
        · exact hv hv2used
        · exact hnd.1 h2
      · intro x hx
        simp only [dictInsert, if_neg h, List.map_cons, List.mem_cons] at hx
        rcases hx with rfl | hx
        · exact List.mem_cons_of_mem _ hv2used
        · exact ihr.2 x hx

theorem mappingInv_pass1 (columns : List String) :
    ∀ (fields : List (String × List String)) (m : List (String × String))
      (used : List String), MappingInv m used →
      MappingInv (pass1 columns fields m used).1 (pass1 columns fields m used).2 := by
  intro fields
  induction fields with
  | nil => intro m used h; exact h
  | cons f fields ih =>
    intro m used h
    obtain ⟨std, aliases⟩ := f
    by_cases hu : std ∈ used
    · simp only [pass1, if_pos hu]
      exact ih m used h
    · simp only [pass1, if_neg hu]
      cases columns.find? (fun col => decide (col ∈ aliases)) with
      | none => exact ih m used h
      | some col => exact ih _ _ (mappingInv_dictInsert col std m used h hu)

theorem mappingInv_pass2 (columns : List String) :
    ∀ (fields : List (String × List String)) (m : List (String × String))
      (used : List String), MappingInv m used →
      MappingInv (pass2 columns fields m used).1 (pass2 columns fields m used).2 := by
  intro fields
  induction fields with
  | nil => intro m used h; exact h
  | cons f fields ih =>
    intro m used h
    obtain ⟨std, aliases⟩ := f
    by_cases hu : std ∈ used
    · simp only [pass2, if_pos hu]
      exact ih m used h
    · simp only [pass2, if_neg hu]
      cases columns.find?
          (fun col => !(m.lookup col).isSome && fuzzyMatch aliases col) with
      | none => exact ih m used h
      | some col => exact ih _ _ (mappingInv_dictInsert col std m used h hu)

/- ## Theorems for C1 and C2 -/

/-- C1: for every column set, the weight allocator either fails with the
data-insufficiency error (which happens exactly when neither the 7-day pair
nor the 30-day pair of sales/GMV columns is present, scenario D) or returns a
weight vector which, after the optional holiday adjustment, sums to 1.0
within 1e-6. -/
theorem weight_allocator_sums_to_one (cols : List String) (hol : Bool) (w : Weights) :
    (has_7d_fields cols = false ∧ has_30d_fields cols = false →
      adjust_weights_for_available_fields cols get_base_weights =
        .error missingFieldsError) ∧
    (adjust_weights_for_available_fields cols get_base_weights = .ok w →
      |sumWeights (adjust_holiday_weights w hol) - 1| ≤ 1/1000000) := by
  cases h7 : has_7d_fields cols <;> cases h30 : has_30d_fields cols
  · -- scenario D
    refine ⟨fun _ => by simp [adjust_weights_for_available_fields, h7, h30], fun hw => ?_⟩
    simp [adjust_weights_for_available_fields, h7, h30] at hw
  · -- scenario B
    refine ⟨fun h => by simp [h30] at h, fun hw => ?_⟩
    simp [adjust_weights_for_available_fields, h7, h30] at hw
    subst hw
    cases hol <;>
      norm_num [adjust_holiday_weights, scaleOthers, sumWeights, get_base_weights]
  · -- scenario C
    refine ⟨fun h => by simp [h7] at h, fun hw => ?_⟩
    simp [adjust_weights_for_available_fields, h7, h30] at hw
    subst hw
    cases hol <;>
      norm_num [adjust_holiday_weights, scaleOthers, sumWeights, get_base_weights]
  · -- scenario A
    refine ⟨fun h => by simp [h7] at h, fun hw => ?_⟩
    simp [adjust_weights_for_available_fields, h7, h30] at hw
    subst hw
    cases hol <;>
      norm_num [adjust_holiday_weights, scaleOthers, sumWeights, get_base_weights]

/-- Witness for C1: scenario D fails on an empty column set, and scenario B
(columns `sales_30d`, `gmv_30d` only) in holiday mode yields a weight vector
summing to 1.0 within 1e-6. -/
theorem weight_allocator_sums_to_one_witness :
    (adjust_weights_for_available_fields [] get_base_weights =
      .error missingFieldsError) ∧
    |sumWeights (adjust_holiday_weights
      { sales_30d_score := 21/100, gmv_30d_score := 14/100, sales_7d_score := 0,
        gmv_7d_score := 0, commission_score := 15/100, influencer_score := 10/100,
        rank_score := 12/100, growth_score := 8/100, channel_score := 5/100,
        conv_score := 5/100, live_gmv_score := 5/100, card_gmv_score := 5/100 }
      true) - 1| ≤ 1/1000000 :=
  ⟨(weight_allocator_sums_to_one [] true get_base_weights).1 ⟨by decide, by decide⟩,
   (weight_allocator_sums_to_one ["sales_30d", "gmv_30d"] true _).2 (by
     simp [adjust_weights_for_available_fields, has_7d_fields, has_30d_fields,
       get_base_weights]
     norm_num)⟩

/-- C2 counterexample: at conv_30d = 0.2 the sub-score returned by
`filter_and_score_conversion` is 0.08, not the claimed
`clip(0.2,0,0.2)/0.2 = 1` — the 0.08 factor is baked into the sub-score —
and the weight the WeightVector applies to the conversion dimension later is
0.05, not 0.08. -/
theorem conversion_subscore_counterexample :
    (filter_and_score_conversion [2/10]).1 ≠
      [min (max ((2:ℚ)/10) 0) (2/10) / (2/10)] ∧
    get_base_weights.conv_score ≠ 8/100 := by
  constructor
  · intro h
    simp [filter_and_score_conversion] at h
    norm_num at h
  · intro h
    norm_num [get_base_weights] at h

/-- C2 (amended): the conversion sub-score produced by
`filter_and_score_conversion` equals `clip(conv_30d,0,0.2)/0.2 * 0.08` per
row — the 0.08 factor is baked into the sub-score itself — and the weight
applied to the conversion dimension later through the WeightVector is
0.05. -/
theorem conversion_subscore_formula (convs : List ℚ) :
    (filter_and_score_conversion convs).1 =
      convs.map (fun c => min (max c 0) (2/10) / (2/10) * (8/100)) ∧
    get_base_weights.conv_score = 5/100 := by
  constructor
  · simp [filter_and_score_conversion]
  · rfl

/-- C4: the numeric normalizer maps "15%" to 0.15, "1.2万" to 12000,
"7.5w-10w" to 87500 (mean of the unit-expanded endpoints), "—" to null,
"1,200" to 1200, and "50千" to 50000. -/
theorem numeric_normalizer_examples :
    normalize_cell ("15%") = .num (15/100) ∧
    normalize_cell ("1.2万") = .num 12000 ∧
    normalize_cell ("7.5w-10w") = .num 87500 ∧
    normalize_cell ("—") = .na ∧
    normalize_cell ("1,200") = .num 1200 ∧
    normalize_cell ("50千") = .num 50000 := by
  refine ⟨?_, ?_, ?_, ?_, ?_, ?_⟩ <;>
    (simp +decide [normalize_cell, normPercent, normRange, normUnit, normPlain,
      pyFloat, pyFloatCore, searchNumUnit, matchNumUnitAt, searchRange,
      matchRangeAt, findNumUnitAll, applyUnit, applyUnitOpt, parseNumToken,
      digitsToNat, isUnitChar, List.span, List.span.loop] <;> norm_num)

/-- C7: the holiday detector reports 5 days to the nearest holiday (25 Dec)
for 2024-12-20, activating holiday mode, and 92 days (15 Sep) for 2024-06-15,
leaving holiday mode off. -/
theorem holiday_detector_examples :
    calculate_days_to_next_holiday_str ("2024-12-20") = 5 ∧
    is_holiday_mode_of (calculate_days_to_next_holiday_str ("2024-12-20")) = true ∧
    calculate_days_to_next_holiday_str ("2024-06-15") = 92 ∧
    is_holiday_mode_of (calculate_days_to_next_holiday_str ("2024-06-15")) = false := by
  refine ⟨?_, ?_, ?_, ?_⟩ <;> decide

/-- C10: the holiday-distance computation is total on strings: it either
parses the reference date and returns the minimum-distance computation on it,
or returns the fallback 999, which leaves holiday mode inactive (999 > 45). -/
theorem holiday_distance_never_fails (s : String) :
    (∃ d, parseDate s = some d ∧
      calculate_days_to_next_holiday_str s = calculate_days_to_next_holiday d) ∨
    (parseDate s = none ∧ calculate_days_to_next_holiday_str s = 999 ∧
      is_holiday_mode_of (calculate_days_to_next_holiday_str s) = false) := by
  cases h : parseDate s with
  | none =>
    right
    refine ⟨rfl, ?_, ?_⟩ <;>
      simp [calculate_days_to_next_holiday_str, h, is_holiday_mode_of]
  | some d =>
    left
    exact ⟨d, rfl, by simp [calculate_days_to_next_holiday_str, h]⟩

/-- C9: after the column-completion loop that runs before any dimension
scorer, every one of the 12 designated numeric columns exists and contains
only numeric cells: an absent column is created with every cell 0, and
non-coercible cells (NaN or unparsable strings) become 0, so no scorer
observes a null or string cell in these columns. -/
theorem numeric_columns_always_numeric (t : Table) (n : ℕ) (c : String)
    (hc : c ∈ numeric_cols) :
    ∃ cells, getCol (ensure_numeric_columns t n) c = some cells ∧
      ∀ x ∈ cells, ∃ q, x = Cell.num q :=
  allNum_foldl_mem n numeric_cols c t hc

/-- Witness for C9: a table holding an unparsable string in `sales_7d` comes
out of the loop with that column present and fully numeric. -/
theorem numeric_columns_always_numeric_witness :
    "sales_7d" ∈ numeric_cols ∧
    ∃ cells, getCol (ensure_numeric_columns [("sales_7d", [Cell.str ("x")])] 1)
        "sales_7d" = some cells ∧ ∀ x ∈ cells, ∃ q, x = Cell.num q :=
  ⟨by decide, numeric_columns_always_numeric [("sales_7d", [Cell.str ("x")])] 1
    "sales_7d" (by decide)⟩

/-- C3 (amended): because the column-completion loop creates any missing
`sales_30d`/`sales_1y` columns as all-zeros before the growth branch runs,
the growth score is always `clip(sales_30d/(sales_1y/12 + 1) - penalty, 0, 1)`
over the zero-filled columns; the `sales_7d * 4.3` estimation branch and the
0.5 neutral branch are unreachable. -/
theorem growth_score_formula (t : Table) (n : ℕ) :
    growthColumn t n =
      List.zipWith growth_potential_score
        (getColQ (ensure_numeric_columns t n) "sales_30d")
        (getColQ (ensure_numeric_columns t n) "sales_1y") := by
  obtain ⟨c30, h30, _⟩ := allNum_foldl_mem n numeric_cols "sales_30d" t (by decide)
  obtain ⟨c1y, h1y, _⟩ := allNum_foldl_mem n numeric_cols "sales_1y" t (by decide)
  unfold growthColumn
  simp only [ensure_numeric_columns]
  simp [hasCol, h30, h1y]

/-- C3 counterexample: on a one-row table with `sales_7d = 100`,
`sales_1y = 0` and no `sales_30d` column, the claim prescribes the estimated
score `growth(100 * 4.3, 0) = 1`, but the code zero-fills the absent 30-day
column and yields growth score 0. -/
theorem growth_estimate_counterexample :
    growthColumn [("sales_7d", [Cell.num 100]), ("sales_1y", [Cell.num 0])] 1 =
      [0] ∧
    growth_potential_score (100 * (43/10)) 0 = 1 ∧ ((0 : ℚ) ≠ 1) := by
  refine ⟨?_, ?_, by norm_num⟩
  · simp +decide [growthColumn, ensure_numeric_columns, numeric_cols, coerceStep,
      getCol, setCol, toNumericFill0, hasCol, getColQ, growth_potential_score]
  · norm_num [growth_potential_score]

/-- All-zero batches fall through both filter tiers and are kept in full by
the keep-all tier, with sub-score 0 on every row. -/
theorem conv_cascade_all_zero (convs : List ℚ) (hz : ∀ c ∈ convs, c = 0)
    (hne : convs ≠ []) :
    conv_filter_cascade convs = (convs, convs.map (fun _ => (0:ℚ))) := by
  have hempty : convs.isEmpty = false := by
    cases convs with
    | nil => exact absurd rfl hne
    | cons a l => rfl
  have hcount : (filter_and_score_conversion convs).2.count true = 0 := by
    simp [filter_and_score_conversion, List.count_eq_zero, List.mem_map]
    intro c hc
    rw [hz c hc]
    norm_num
  have hscore : convs.map convScoreExpr = convs.map (fun _ => (0:ℚ)) := by
    apply List.map_congr_left
    intro c hc
    rw [hz c hc]
    norm_num [convScoreExpr]
  simp [conv_filter_cascade, hempty, hcount, hscore]
  intro hpos
  exfalso
  rw [List.length_pos, ne_eq, List.filter_eq_nil_iff] at hpos
  apply hpos
  intro c hc
  rw [hz c hc]
  simp only [decide_eq_true_eq]
  norm_num

/-- C5 (amended): the conversion admission filter cascades through the tiers
≥0.02, ≥0.01, keep-all. A non-empty batch whose conversion rates all lie in
[0.01, 0.02) is kept in full by the middle tier, hence yields a non-empty
result; a batch with no `conv_30d` column has that column zero-filled by the
coercion step, so its rows fall through to the keep-all tier (also a
non-empty result) but every row's conversion sub-score is 0 — the fixed
neutral 0.04 sub-score series is produced only for an empty batch. -/
theorem conv_cascade_behavior (convs : List ℚ) (t : Table) (n : ℕ)
    (hne : convs ≠ []) (hmid : ∀ c ∈ convs, 1/100 ≤ c ∧ c < 2/100)
    (habs : getCol t "conv_30d" = none) :
    (conv_filter_cascade convs = (convs, convs.map convScoreExpr) ∧
      (conv_filter_cascade convs).1 ≠ []) ∧
    conv_filter_cascade (getColQ (ensure_numeric_columns t n) "conv_30d") =
      (List.replicate n 0, List.replicate n 0) := by
  constructor
  · have hempty : convs.isEmpty = false := by
      cases convs with
      | nil => exact absurd rfl hne
      | cons a l => rfl
    have hcount : (filter_and_score_conversion convs).2.count true = 0 := by
      simp [filter_and_score_conversion, List.count_eq_zero, List.mem_map]
      intro c hc
      exact (hmid c hc).2
    have hinv : ((100:ℚ)⁻¹ : ℚ) = 1/100 := by norm_num
    have hcasc : conv_filter_cascade convs = (convs, convs.map convScoreExpr) := by
      simp [conv_filter_cascade, hempty, hcount]
      intro _
      have hfe : List.filter (fun c => decide ((100:ℚ)⁻¹ ≤ c)) convs = convs := by
        rw [List.filter_eq_self]
        intro a ha
        simp only [decide_eq_true_eq, hinv]
        exact (hmid a ha).1
      constructor
      · intro a ha
        rw [hinv]
        exact (hmid a ha).1
      · rw [hfe]
    exact ⟨hcasc, by rw [hcasc]; exact hne⟩
  · have hcol := getCol_ensure_conv_absent t n habs
    have hq : getColQ (ensure_numeric_columns t n) "conv_30d" =
        List.replicate n 0 := by
      simp [getColQ, hcol]
    rw [hq]
    cases n with
    | zero => simp [conv_filter_cascade]
    | succ m =>
      have hz : ∀ c ∈ List.replicate (m+1) (0:ℚ), c = 0 :=
        fun c hc => List.eq_of_mem_replicate hc
      have hne2 : List.replicate (m+1) (0:ℚ) ≠ [] := by simp
      rw [conv_cascade_all_zero _ hz hne2]
      simp

/-- Witness for C5: a one-row batch with conversion rate 0.015 is kept by the
middle tier, and a one-row table with no conv_30d column yields the kept
all-zero column with all-zero sub-scores. -/
theorem conv_cascade_behavior_witness :
    (conv_filter_cascade [3/200] = ([3/200], [3/200].map convScoreExpr) ∧
      (conv_filter_cascade [3/200]).1 ≠ []) ∧
    conv_filter_cascade (getColQ (ensure_numeric_columns [] 1) "conv_30d") =
      (List.replicate 1 0, List.replicate 1 0) :=
  conv_cascade_behavior [3/200] [] 1 (List.cons_ne_nil _ _)
    (by
      intro c hc
      simp at hc
      subst hc
      constructor <;> norm_num)
    rfl

/-- C5 counterexample: with one row and no `conv_30d` column, the produced
conversion sub-score is 0, which is not a neutral score corresponding to
conv_30d = 0.04 — neither under the code's weighted formula (0.016) nor under
the unweighted formula (0.2). -/
theorem conv_neutral_counterexample :
    (conv_filter_cascade (getColQ (ensure_numeric_columns [] 1) "conv_30d")).2 =
      [0] ∧
    (0:ℚ) ≠ convScoreExpr (4/100) ∧
    (0:ℚ) ≠ min (max ((4:ℚ)/100) 0) (2/10) / (2/10) := by
  refine ⟨?_, by norm_num [convScoreExpr], by norm_num⟩
  have hcol := getCol_ensure_conv_absent [] 1 rfl
  have hq : getColQ (ensure_numeric_columns [] 1) "conv_30d" =
      List.replicate 1 0 := by
    simp [getColQ, hcol]
  rw [hq, conv_cascade_all_zero _ (fun c hc => List.eq_of_mem_replicate hc) (by simp)]
  simp

/-- C6: the final selection, applied to the concatenation of all per-file
results in processing order, de-duplicates on `product_url` keeping the first
occurrence, and outputs exactly min(50, distinct product count) rows in
non-increasing `total_score` order. -/
theorem top50_selection (results : List (List SRow)) :
    (select_top50 results).length = min 50 (distinctUrlCount results.flatten) ∧
    (select_top50 results).Pairwise (fun a b => b.total_score ≤ a.total_score) ∧
    ∀ r ∈ select_top50 results,
      results.flatten.find? (fun x => x.product_url == r.product_url) = some r := by
  refine ⟨?_, ?_, ?_⟩
  · rw [select_top50, List.length_take, length_sortDesc, length_dedupByUrl,
      distinctUrlCount]
    simp
  · exact List.Pairwise.sublist (List.take_sublist _ _) (sorted_sortDesc _)
  · intro r hr
    have h1 : r ∈ sortDescByScore (dedupByUrl [] results.flatten) :=
      List.Sublist.mem hr (List.take_sublist _ _)
    exact (dedup_first_occurrence _ _ r ((mem_sortDesc r _).mp h1)).2

/-- Witness for C6 on a concrete batch of two files with a duplicated url:
the output length matches and the duplicated url resolves to its first
occurrence. -/
theorem top50_selection_witness :
    (select_top50 [[⟨"a", 2⟩, ⟨"a", 1⟩], [⟨"b", 3⟩]]).length =
      min 50 (distinctUrlCount
        ([[⟨"a", 2⟩, ⟨"a", 1⟩], [⟨"b", 3⟩]] : List (List SRow)).flatten) ∧
    ([[⟨"a", 2⟩, ⟨"a", 1⟩], [⟨"b", 3⟩]] : List (List SRow)).flatten.find?
      (fun x => x.product_url == (⟨"a", 2⟩ : SRow).product_url) =
        some ⟨"a", 2⟩ :=
  ⟨(top50_selection _).1,
   (top50_selection _).2.2 ⟨"a", 2⟩ (by
     have hsel : select_top50 [[⟨"a", 2⟩, ⟨"a", 1⟩], [⟨"b", 3⟩]] =
         [⟨"b", 3⟩, ⟨"a", 2⟩] := by
       norm_num [select_top50, dedupByUrl, sortDescByScore, insertDesc]
     rw [hsel]
     simp)⟩

/-- C8: the field resolver never assigns two raw columns to the same
canonical field (first claim wins), and on the column list
["商品", "商品名称", "产品名"] — all aliases of product_name — exactly one
column is mapped, to product_name, and the other two stay unmapped. -/
theorem field_mapping_injective (columns : List String) :
    ((smart_field_mapping columns).map Prod.snd).Nodup ∧
    smart_field_mapping ["商品", "商品名称", "产品名"] =
      [("商品", "product_name")] := by
  constructor
  · have h1 := mappingInv_pass1 columns FIELD_ALIASES [] []
      ⟨List.nodup_nil, by simp⟩
    exact (mappingInv_pass2 columns FIELD_ALIASES _ _ h1).1
  · decide

end SJUPF
